import Mathlib

/-!
Verification of the core synchronization engine of `wesm/argh`
(GitHub issue mirroring into a local SQLite store).

Shallow embedding of:
- `internal/api/github.go` : `HandleGitHubID`, the wait computation of
  `executeWithRetry`, the retry loop itself, and the pagination loops of
  `GetIssues` / `GetIssueComments`;
- `internal/db/db.go` : the persistence layer (`Save*`, checkpoint
  read/write) over an explicit relational store with SQLite upsert
  semantics (`INSERT ... ON CONFLICT(target) DO UPDATE/NOTHING`);
- `internal/sync/sync.go` : `NewSyncer`, `SetWorkers`, `processIssue`
  and the sequential skeleton of `SyncRepository`.

Machine integers are modelled as `Int`/`Nat` with explicit `% 2^64`
where reinterpretation matters; Go durations are `Int` nanoseconds;
fallible operations return `Except Unit`.
-/

set_option autoImplicit false

namespace Argh

/-! ## Identifier normalizer (`internal/api/github.go`, `HandleGitHubID`) -/

/-- `math.MaxInt64`, the largest signed 64-bit value. -/
def int64Max : Int := 9223372036854775807

/-- `2^64`, the modulus of 64-bit machine arithmetic. -/
def uint64Mod : Int := 18446744073709551616

/-- Go's `uint64(id)` on an `int64` value: the two's-complement
reinterpretation of the bit pattern as an unsigned value. -/
def int64ToUint64 (id : Int) : Nat := (id % uint64Mod).toNat

/-- Reinterpret an unsigned 64-bit value's bit pattern as a signed
64-bit value (the inverse direction of `int64ToUint64`). -/
def uint64ToInt64 (u : Nat) : Int :=
  if u < 2 ^ 63 then (u : Int) else (u : Int) - uint64Mod

/-- Go's `strconv.FormatUint(u, 10)`: the base-10 decimal representation
of `u`, as the list of digits most-significant first. -/
def formatUint (u : Nat) : List Nat := (Nat.digits 10 u).reverse

/-- Go's `strconv.ParseInt(s, 10, 64)` applied to an unsigned decimal
digit string (as produced by `formatUint`): returns the parsed value and
a success flag.  On range overflow Go returns the saturated value
`math.MaxInt64` together with `ErrRange`; the flag is `false` there. -/
def parseInt64 (ds : List Nat) : Int × Bool :=
  let n : Nat := Nat.ofDigits 10 ds.reverse
  if (n : Int) ≤ int64Max then ((n : Int), true) else (int64Max, false)

/-- `HandleGitHubID` (github.go:518-533): if the id is negative, convert
to the unsigned representation, format as a decimal string, and parse
back as `int64`, ignoring any parse error (`parsedID, _ := ...`); the
parsed value is returned even when parsing failed.  Nonnegative ids pass
through unchanged. -/
def HandleGitHubID (id : Int) : Int :=
  if id < 0 then
    let unsignedID := int64ToUint64 id
    let idStr := formatUint unsignedID
    let parsedID := (parseInt64 idStr).1
    parsedID
  else
    id

/-! ## Retry layer (`internal/api/github.go`, `executeWithRetry`) -/

/-- One nanosecond-denominated second, as in Go's `time.Duration`. -/
def nsPerSecond : Int := 1000000000

/-- Two's-complement wraparound of Go's signed 64-bit arithmetic: the
representative of `x` in `[-2^63, 2^63)`. -/
def wrapInt64 (x : Int) : Int := (x + 2 ^ 63) % 2 ^ 64 - 2 ^ 63

/-- The wait-time computation inside `executeWithRetry`
(github.go:281-295), for a rate-limit error whose reset instant lies
`untilReset` nanoseconds in the future.  `untilReset` is the int64
`time.Duration` produced by `time.Until(rateLimitErr.ResetTime)`
(`time.Sub` saturates at the int64 bounds, so it lies in
`[-2^63, 2^63)`).  The code adds a 5 s buffer with plain int64
addition — which wraps, so a near-maximal saturated duration becomes
negative — caps at 1 hour, and replaces any result below 5 s by 30 s. -/
def computeWaitTime (untilReset : Int) : Int :=
  let waitTime := wrapInt64 (untilReset + 5 * nsPerSecond)
  let waitTime := if waitTime > 3600 * nsPerSecond then 3600 * nsPerSecond else waitTime
  if waitTime < 5 * nsPerSecond then 30 * nsPerSecond else waitTime

/-- An error returned by one execution of the wrapped operation: either a
`RateLimitError` (carrying the distance `time.Until(ResetTime)` to its
reset instant, in nanoseconds, as observed at that iteration) or any
other error (tagged by a code). -/
inductive GoError where
  | rateLimit (untilReset : Int)
  | other (code : Nat)
deriving DecidableEq, Repr

/-- Outcome of `executeWithRetry`: success (`fn` returned `nil`), an
immediately propagated error, or the terminal
"exceeded maximum retries" error wrapping the last rate-limit failure. -/
inductive RetryResult where
  | success
  | propagated (e : GoError)
  | exceededRetries (maxRetries : Nat) (last : GoError)
deriving DecidableEq, Repr

/-- The retry loop of `executeWithRetry` (github.go:262-316) with an
uncancelled context.  `fn n` is the outcome of the `n`-th execution of
the wrapped operation (`none` = no error).  `retryCount` counts
executions performed so far.  Returns the result together with the list
of waits performed (each computed by `computeWaitTime`).  The Go loop
waits, increments `retryCount`, and returns the terminal error once
`retryCount >= maxRetries`. -/
def retryLoop (fn : Nat → Option GoError) (maxRetries : Nat) (retryCount : Nat) :
    RetryResult × List Int :=
  match fn retryCount with
  | none => (.success, [])
  | some (.other c) => (.propagated (.other c), [])
  | some (.rateLimit d) =>
    let w := computeWaitTime d
    if _h : retryCount + 1 ≥ maxRetries then
      (.exceededRetries maxRetries (.rateLimit d), [w])
    else
      let r := retryLoop fn maxRetries (retryCount + 1)
      (r.1, w :: r.2)
termination_by maxRetries - retryCount
decreasing_by omega

/-- `executeWithRetry` with its hard-coded `maxRetries := 5` and initial
`retryCount := 0`. -/
def executeWithRetry (fn : Nat → Option GoError) : RetryResult × List Int :=
  retryLoop fn 5 0

/-! ## Pagination (`internal/api/github.go`, `GetIssues` / `GetIssueComments`) -/

/-- The pagination loop shared by `GetIssues` (github.go:365-391) and
`GetIssueComments` (github.go:408-433): fetch page `page`, append its
items, stop as soon as a page holds fewer than `perPage` items,
otherwise advance to `page + 1`.  `fetchPage` is the (successful)
remote response for each page number.  The Go loop has no other exit,
so it is modelled with fuel: `none` means the loop has not terminated
within `fuel` requests. -/
def paginate {α : Type} (fetchPage : Nat → List α) (perPage : Nat) :
    Nat → Nat → Option (List α)
  | _page, 0 => none
  | page, fuel + 1 =>
    let items := fetchPage page
    if items.length < perPage then
      some items
    else
      match paginate fetchPage perPage (page + 1) fuel with
      | some rest => some (items ++ rest)
      | none => none

/-- `GetIssues`: pages of up to 100 items starting at page 1. -/
def GetIssues {α : Type} (fetchPage : Nat → List α) (fuel : Nat) : Option (List α) :=
  paginate fetchPage 100 1 fuel

/-- `GetIssueComments`: pages of up to 100 items starting at page 1. -/
def GetIssueComments {α : Type} (fetchPage : Nat → List α) (fuel : Nat) : Option (List α) :=
  paginate fetchPage 100 1 fuel

/-! ## Persistence layer (`internal/db/db.go`)

The store holds the rows of the schema created by `Initialize`
(db.go:32-102).  Each `Save*` models its SQL statement under SQLite
upsert semantics, checked against SQLite 3.40:
`INSERT ... ON CONFLICT(target) DO UPDATE` runs the `UPDATE` on the
row matching the conflict target when one exists (any conflict of the
abandoned `INSERT` on another constraint is then irrelevant, but the
`UPDATE` itself fails if it would collide with a different row on a
unique constraint); when no row matches the target, the `INSERT` runs
and fails on any uniqueness violation.  Foreign keys are not enforced
(the driver leaves `PRAGMA foreign_keys` off).  Errors are `Except.error ()`
(the Go functions wrap and return the SQL error); a failed statement
leaves the store unchanged. -/

/-- The `DO UPDATE` part of an upsert: apply the update `u` in place to
the rows matching the conflict target `p` (at most one row matches,
since `p` checks a unique key). -/
def updateWhere {β : Type} (p : β → Bool) (u : β → β) (l : List β) : List β :=
  l.map fun z => if p z then u z else z

/-- A row of `repositories` (PK `id`, UNIQUE `full_name`). -/
structure RepoRow where
  id : Int
  owner : String
  name : String
  fullName : String
deriving DecidableEq, Repr

/-- A row of `users` (PK `id`, UNIQUE `login`). -/
structure UserRow where
  id : Int
  login : String
  avatarURL : String
deriving DecidableEq, Repr

/-- A row of `issues` (PK `id`, UNIQUE `(repository_id, number)`). -/
structure IssueRow where
  id : Int
  number : Int
  title : String
  body : String
  state : String
  createdAt : Int
  updatedAt : Int
  closedAt : Option Int
  userId : Int
  repositoryId : Int
  isPullRequest : Bool
deriving DecidableEq, Repr

/-- A row of `comments` (PK `id`). -/
structure CommentRow where
  id : Int
  issueId : Int
  userId : Int
  body : String
  createdAt : Int
  updatedAt : Int
deriving DecidableEq, Repr

/-- A row of `labels` (PK `id`, UNIQUE `(name, color)`). -/
structure LabelRow where
  id : Int
  name : String
  color : String
deriving DecidableEq, Repr

/-- The relational store: one list of rows per table of the schema.
`issueLabels` has PK `(issue_id, label_id)`; `syncMetadata` maps a
repository full name (PK) to its `last_sync_time`. -/
structure Store where
  repositories : List RepoRow
  users : List UserRow
  issues : List IssueRow
  comments : List CommentRow
  labels : List LabelRow
  issueLabels : List (Int × Int)
  syncMetadata : List (String × Int)
deriving DecidableEq, Repr

/-- The empty store, as after `Initialize` on a fresh database. -/
def Store.empty : Store := ⟨[], [], [], [], [], [], []⟩

/-! Domain models (`internal/models`). -/

/-- `models.Repository`. -/
structure ModelRepository where
  id : Int
  owner : String
  name : String
  fullName : String
deriving DecidableEq, Repr

/-- `models.User` (the `Type` field is accepted by `SaveUser` but not
stored, matching the `users` schema). -/
structure ModelUser where
  id : Int
  login : String
  avatarURL : String
  type : String
deriving DecidableEq, Repr

/-- `models.Issue`. -/
structure ModelIssue where
  id : Int
  number : Int
  title : String
  body : String
  state : String
  createdAt : Int
  updatedAt : Int
  closedAt : Option Int
  userId : Int
  isPullRequest : Bool
deriving DecidableEq, Repr

/-- `models.Comment`. -/
structure ModelComment where
  id : Int
  issueId : Int
  userId : Int
  body : String
  createdAt : Int
  updatedAt : Int
deriving DecidableEq, Repr

/-- `models.Label`. -/
structure ModelLabel where
  id : Int
  name : String
  color : String
deriving DecidableEq, Repr

/-- `SaveRepository` (db.go:105-120): upsert with conflict target
`full_name`, `DO UPDATE SET owner, name` (not `id`).  When no row has
this full name, the insert fails if another row already holds `id`. -/
def SaveRepository (repo : ModelRepository) (s : Store) : Except Unit Store :=
  if s.repositories.any (fun r => r.fullName = repo.fullName) then
    Except.ok { s with repositories := (updateWhere (fun r => r.fullName = repo.fullName)
      (fun r => { r with owner := repo.owner, name := repo.name }) s.repositories) }
  else if s.repositories.any (fun r => r.id = repo.id) then
    Except.error ()
  else
    Except.ok { s with repositories :=
      s.repositories ++ [⟨repo.id, repo.owner, repo.name, repo.fullName⟩] }

/-- `SaveUser` (db.go:123-138): upsert with conflict target `id`,
`DO UPDATE SET login, avatar_url`.  The update fails if it would give a
different row's `login` to this row; the insert fails if another row
already holds `login`. -/
def SaveUser (user : ModelUser) (s : Store) : Except Unit Store :=
  if s.users.any (fun r => r.id = user.id) then
    if s.users.any (fun r => r.id ≠ user.id ∧ r.login = user.login) then
      Except.error ()
    else
      Except.ok { s with users := (updateWhere (fun r => r.id = user.id)
        (fun r => { r with login := user.login, avatarURL := user.avatarURL }) s.users) }
  else if s.users.any (fun r => r.login = user.login) then
    Except.error ()
  else
    Except.ok { s with users := s.users ++ [⟨user.id, user.login, user.avatarURL⟩] }

/-- `SaveIssue` (db.go:141-174): upsert with conflict target
`(repository_id, number)`, `DO UPDATE SET` every column except `id`,
`number`, `created_at`, `repository_id`.  When no row matches the
target, the insert fails if another row already holds `id`. -/
def SaveIssue (issue : ModelIssue) (repoID : Int) (s : Store) : Except Unit Store :=
  if s.issues.any (fun r => r.repositoryId = repoID ∧ r.number = issue.number) then
    Except.ok { s with issues := (updateWhere
      (fun r => r.repositoryId = repoID ∧ r.number = issue.number)
      (fun r => { r with title := issue.title, body := issue.body, state := issue.state,
                         updatedAt := issue.updatedAt, closedAt := issue.closedAt,
                         userId := issue.userId, isPullRequest := issue.isPullRequest })
      s.issues) }
  else if s.issues.any (fun r => r.id = issue.id) then
    Except.error ()
  else
    Except.ok { s with issues := s.issues ++
      [⟨issue.id, issue.number, issue.title, issue.body, issue.state, issue.createdAt,
        issue.updatedAt, issue.closedAt, issue.userId, repoID, issue.isPullRequest⟩] }

/-- `SaveComment` (db.go:177-200): upsert with conflict target `id`
(the only constraint), `DO UPDATE SET body, updated_at`. -/
def SaveComment (comment : ModelComment) (s : Store) : Except Unit Store :=
  if s.comments.any (fun r => r.id = comment.id) then
    Except.ok { s with comments := (updateWhere (fun r => r.id = comment.id)
      (fun r => { r with body := comment.body, updatedAt := comment.updatedAt }) s.comments) }
  else
    Except.ok { s with comments := s.comments ++
      [⟨comment.id, comment.issueId, comment.userId, comment.body,
        comment.createdAt, comment.updatedAt⟩] }

/-- `SaveLabel` (db.go:203-232): upsert with conflict target `id`,
`DO UPDATE SET name, color`, `RETURNING id` (which yields `label.ID` on
every successful path; the non-RETURNING fallback runs the same
statement and also returns `label.ID`).  The update fails if it would
duplicate a different row's `(name, color)`; the insert fails if another
row already holds `(name, color)` — the schema's `UNIQUE(name, color)`
is not the conflict target. -/
def SaveLabel (label : ModelLabel) (s : Store) : Except Unit (Int × Store) :=
  if s.labels.any (fun r => r.id = label.id) then
    if s.labels.any (fun r => r.id ≠ label.id ∧ r.name = label.name ∧ r.color = label.color) then
      Except.error ()
    else
      Except.ok (label.id, { s with labels := (updateWhere (fun r => r.id = label.id)
        (fun r => { r with name := label.name, color := label.color }) s.labels) })
  else if s.labels.any (fun r => r.name = label.name ∧ r.color = label.color) then
    Except.error ()
  else
    Except.ok (label.id, { s with labels := s.labels ++ [⟨label.id, label.name, label.color⟩] })

/-- `SaveIssueLabel` (db.go:235-248): insert with conflict target
`(issue_id, label_id)` (the PK) and `DO NOTHING`; a duplicate insert is
a no-op, never an error. -/
def SaveIssueLabel (issueID labelID : Int) (s : Store) : Except Unit Store :=
  if s.issueLabels.any (fun p => p.1 = issueID ∧ p.2 = labelID) then
    Except.ok s
  else
    Except.ok { s with issueLabels := s.issueLabels ++ [(issueID, labelID)] }

/-- `GetLastSyncTime` (db.go:251-265): point query on `sync_metadata`;
returns the zero time (modelled as `0`) when no row exists. -/
def GetLastSyncTime (repoFullName : String) (s : Store) : Int :=
  match s.syncMetadata.find? (fun p => p.1 = repoFullName) with
  | some p => p.2
  | none => 0

/-- `UpdateLastSyncTime` (db.go:268-282): upsert with conflict target
`repository` (the PK, the table's only constraint), so the statement
never fails logically. -/
def UpdateLastSyncTime (repoFullName : String) (syncTime : Int) (s : Store) : Store :=
  if s.syncMetadata.any (fun p => p.1 = repoFullName) then
    { s with syncMetadata := (updateWhere (fun p => p.1 = repoFullName)
      (fun p => (p.1, syncTime)) s.syncMetadata) }
  else
    { s with syncMetadata := s.syncMetadata ++ [(repoFullName, syncTime)] }

/-! ## Transport shapes and conversions (`go-github` values, `internal/api`) -/

/-- A `github.User` as observed through the getters used by the code. -/
structure GhUser where
  id : Int
  login : String
  avatarURL : String
  type : String
deriving DecidableEq, Repr

/-- A `github.Label` as observed through the fields used by the code. -/
structure GhLabel where
  id : Int
  name : String
  color : String
deriving DecidableEq, Repr

/-- A `github.Issue` as observed through the getters used by the code. -/
structure GhIssue where
  id : Int
  number : Int
  title : String
  body : String
  state : String
  createdAt : Int
  updatedAt : Int
  closedAt : Option Int
  user : Option GhUser
  labels : List GhLabel
  isPullRequest : Bool
deriving DecidableEq, Repr

/-- A `github.IssueComment` as observed through the getters used by the code. -/
structure GhComment where
  id : Int
  user : Option GhUser
  body : String
  createdAt : Int
  updatedAt : Int
deriving DecidableEq, Repr

/-- `ConvertGitHubUser` (github.go:454-461). -/
def ConvertGitHubUser (user : GhUser) : ModelUser :=
  { id := HandleGitHubID user.id
    login := user.login
    avatarURL := user.avatarURL
    type := user.type }

/-- `ConvertGitHubIssue` (github.go:464-488); a missing author leaves
`userId` at the zero value. -/
def ConvertGitHubIssue (issue : GhIssue) : ModelIssue :=
  { id := HandleGitHubID issue.id
    number := issue.number
    title := issue.title
    body := issue.body
    state := issue.state
    createdAt := issue.createdAt
    updatedAt := issue.updatedAt
    closedAt := issue.closedAt
    userId := match issue.user with
      | some u => HandleGitHubID u.id
      | none => 0
    isPullRequest := issue.isPullRequest }

/-- `ConvertGitHubComment` (github.go:491-505). -/
def ConvertGitHubComment (comment : GhComment) (issueID : Int) : ModelComment :=
  { id := HandleGitHubID comment.id
    issueId := issueID
    userId := match comment.user with
      | some u => HandleGitHubID u.id
      | none => 0
    body := comment.body
    createdAt := comment.createdAt
    updatedAt := comment.updatedAt }

/-- `ConvertGitHubLabel` (github.go:508-514). -/
def ConvertGitHubLabel (label : GhLabel) : ModelLabel :=
  { id := HandleGitHubID label.id
    name := label.name
    color := label.color }

/-! ## Sync orchestrator (`internal/sync/sync.go`)

The remote API is a parameter: each method's outcome for this pass.
Worker interleaving is abstracted as a left fold over the materialized
changed-set (adequate for the checkpoint claims: every issue is
processed exactly once and only the store is threaded through).
`endTime` is the value `time.Now()` takes at the final
`UpdateLastSyncTime` call — the instant the pass finished. -/

/-- The remote calls made during one `SyncRepository` pass. -/
structure Remote where
  getRepository : Except Unit (ModelRepository × ModelUser)
  getIssues : Int → Except Unit (List GhIssue)
  getIssueComments : Int → Except Unit (List GhComment)
  endTime : Int

/-- The label-processing loop of `processIssue` (sync.go:249-263): a
failed `SaveLabel` or `SaveIssueLabel` is logged and skipped, keeping
the store from before the failed statement. -/
def processIssueLabels (issueID : Int) (labels : List GhLabel) (s : Store) : Store :=
  labels.foldl (fun st glabel =>
    match SaveLabel (ConvertGitHubLabel glabel) st with
    | .error _ => st
    | .ok (labelID, st1) =>
      match SaveIssueLabel issueID labelID st1 with
      | .error _ => st1
      | .ok st2 => st2) s

/-- The comment-processing loop of `processIssue` (sync.go:271-285):
saves each comment's author then the comment; a failure aborts the
remaining comments, keeping earlier writes.  Returns the store and a
success flag. -/
def saveComments (issueID : Int) (comments : List GhComment) (s : Store) : Store × Bool :=
  match comments with
  | [] => (s, true)
  | c :: rest =>
    match (match c.user with
           | some u => SaveUser (ConvertGitHubUser u) s
           | none => Except.ok s) with
    | .error _ => (s, false)
    | .ok s1 =>
      match SaveComment (ConvertGitHubComment c issueID) s1 with
      | .error _ => (s1, false)
      | .ok s2 => saveComments issueID rest s2

/-- `processIssue` (sync.go:233-288): save the author, upsert the issue,
process labels (log-and-skip), fetch and save comments.  Returns the
store after whatever writes happened, plus a success flag (`false`
corresponds to a non-nil error in Go). -/
def processIssue (remote : Remote) (repoID : Int) (ghIssue : GhIssue) (s : Store) :
    Store × Bool :=
  match (match ghIssue.user with
         | some u => SaveUser (ConvertGitHubUser u) s
         | none => Except.ok s) with
  | .error _ => (s, false)
  | .ok s1 =>
    let issue := ConvertGitHubIssue ghIssue
    match SaveIssue issue repoID s1 with
    | .error _ => (s1, false)
    | .ok s2 =>
      let s3 := processIssueLabels issue.id ghIssue.labels s2
      match remote.getIssueComments issue.number with
      | .error _ => (s3, false)
      | .ok comments => saveComments issue.id comments s3

/-- `SyncRepository` (sync.go:47-230), sequential skeleton: fetch and
save the repository and its owner, read the checkpoint, enumerate the
changed issues, process each one (per-issue failures only counted, never
fatal), and unconditionally advance the checkpoint to `remote.endTime`.
The empty changed-set advances the checkpoint and returns early
(sync.go:84-91).  Fatal setup failures abort the pass. -/
def SyncRepository (remote : Remote) (owner name : String) (s : Store) : Except Unit Store :=
  let fullName := owner ++ "/" ++ name
  match remote.getRepository with
  | .error e => .error e
  | .ok (repo, ownerUser) =>
    match SaveUser ownerUser s with
    | .error e => .error e
    | .ok s1 =>
      match SaveRepository repo s1 with
      | .error e => .error e
      | .ok s2 =>
        let lastSyncTime := GetLastSyncTime fullName s2
        match remote.getIssues lastSyncTime with
        | .error e => .error e
        | .ok issues =>
          if issues.length = 0 then
            .ok (UpdateLastSyncTime fullName remote.endTime s2)
          else
            let s3 := issues.foldl (fun st gi => (processIssue remote repo.id gi st).1) s2
            .ok (UpdateLastSyncTime fullName remote.endTime s3)

/-- The `Syncer` (sync.go:18-22); only the worker count matters for the
claims (the db handle and REST client are external resources). -/
structure Syncer where
  workers : Int
deriving DecidableEq, Repr

/-- `NewSyncer` (sync.go:25-33): stores the requested worker count
without any clamping. -/
def NewSyncer (workers : Int) : Syncer :=
  { workers := workers }

/-- `SetWorkers` (sync.go:36-44): clamp below 1 up to 1, above 10 down
to 10. -/
def SetWorkers (s : Syncer) (workers : Int) : Syncer :=
  let w1 := if workers < 1 then 1 else workers
  let w2 := if w1 > 10 then 10 else w1
  { s with workers := w2 }

/-! ## Helper lemmas -/

/-- Parsing the formatted decimal representation of `u` recovers `u`,
saturating at `int64Max` (with the error flag) when `u` exceeds it. -/
theorem parseInt64_formatUint (u : Nat) :
    parseInt64 (formatUint u) =
      if (u : Int) ≤ int64Max then ((u : Int), true) else (int64Max, false) := by
  simp [parseInt64, formatUint, Nat.ofDigits_digits]

/-- Decimal representations are injective. -/
theorem formatUint_inj {a b : Nat} (h : formatUint a = formatUint b) : a = b := by
  have h2 := congrArg List.reverse h
  simp only [formatUint, List.reverse_reverse] at h2
  have h3 := congrArg (Nat.ofDigits 10) h2
  simpa [Nat.ofDigits_digits] using h3

/-- On every in-range negative input, the unsigned reinterpretation is at
least `2^63`, so the reparse fails with range saturation and
`HandleGitHubID` returns `int64Max` (the error being discarded). -/
theorem handleGitHubID_neg (id : Int) (h0 : -(2 ^ 63) ≤ id) (h1 : id < 0) :
    (parseInt64 (formatUint (int64ToUint64 id))).2 = false ∧
      HandleGitHubID id = int64Max := by
  have hcond : ¬ ((int64ToUint64 id : Int) ≤ int64Max) := by
    unfold int64ToUint64 uint64Mod int64Max
    omega
  refine ⟨?_, ?_⟩
  · rw [parseInt64_formatUint, if_neg hcond]
  · unfold HandleGitHubID
    rw [if_pos h1]
    show (parseInt64 (formatUint (int64ToUint64 id))).1 = int64Max
    rw [parseInt64_formatUint, if_neg hcond]

/-! ## C2: identifier round trip -/

/-- C2 (corrected): the claimed round trip
`formatUint (HandleGitHubID (uint64ToInt64 u)) = formatUint u` fails at
`u = 2^63`: the reinterpreted value is `-(2^63)`, and `HandleGitHubID`
returns `int64Max = 2^63 - 1`, whose decimal representation is not that
of `2^63`. -/
theorem c2_round_trip_counterexample :
    ¬ (formatUint ((HandleGitHubID (uint64ToInt64 (2 ^ 63))).toNat) = formatUint (2 ^ 63)) := by
  intro h
  have hvi : uint64ToInt64 (2 ^ 63) = -(2 ^ 63) := by
    unfold uint64ToInt64 uint64Mod
    norm_num
  rw [hvi] at h
  have hneg := (handleGitHubID_neg (-(2 ^ 63)) (by norm_num) (by norm_num)).2
  rw [hneg] at h
  have := formatUint_inj h
  unfold int64Max at this
  omega

/-- C2 (amended): for every unsigned 64-bit value `u`, the Identifier
Normalizer applied to the signed reinterpretation of `u` recovers `u`'s
decimal representation exactly when `u < 2^63`; for `u ≥ 2^63` (negative
reinterpretation) it returns the saturated value `int64Max`, so the
original decimal string is not recovered. -/
theorem c2_identifier_round_trip :
    ∀ u : Nat, u < 2 ^ 64 →
      (u < 2 ^ 63 → formatUint ((HandleGitHubID (uint64ToInt64 u)).toNat) = formatUint u) ∧
      (2 ^ 63 ≤ u → HandleGitHubID (uint64ToInt64 u) = int64Max) := by
  intro u _hu
  constructor
  · intro hlt
    have hvi : uint64ToInt64 u = (u : Int) := by
      unfold uint64ToInt64
      rw [if_pos (by exact_mod_cast hlt)]
    rw [hvi]
    have hH : HandleGitHubID (u : Int) = (u : Int) := by
      unfold HandleGitHubID
      rw [if_neg (by omega)]
    rw [hH, Int.toNat_natCast]
  · intro hge
    have hvi : uint64ToInt64 u = (u : Int) - uint64Mod := by
      unfold uint64ToInt64
      rw [if_neg (by omega)]
    rw [hvi]
    exact (handleGitHubID_neg _ (by unfold uint64Mod; omega) (by unfold uint64Mod; omega)).2

/-- Witness: the amended round trip evaluated at `u = 5` and `u = 2^63`. -/
theorem c2_identifier_round_trip_witness :
    formatUint ((HandleGitHubID (uint64ToInt64 5)).toNat) = formatUint 5 ∧
      HandleGitHubID (uint64ToInt64 (2 ^ 63)) = int64Max :=
  ⟨(c2_identifier_round_trip 5 (by norm_num)).1 (by norm_num),
   (c2_identifier_round_trip (2 ^ 63) (by norm_num)).2 (by norm_num)⟩

/-! ## C3: identifier normalizer algorithm -/

/-- C3 (corrected): at `id = -1` the reparse fails (range saturation),
yet `HandleGitHubID` does not return the original negative value: it
returns the saturated parse result instead. -/
theorem c3_fallback_counterexample :
    (parseInt64 (formatUint (int64ToUint64 (-1)))).2 = false ∧
      HandleGitHubID (-1) ≠ -1 := by
  have h := handleGitHubID_neg (-1) (by norm_num) (by norm_num)
  refine ⟨h.1, ?_⟩
  rw [h.2]
  unfold int64Max
  omega

/-- C3 (amended): `HandleGitHubID` is total; nonnegative inputs pass
through unchanged; a negative input is reinterpreted as unsigned,
formatted in base 10 and reparsed as signed 64-bit, and the parse
result is returned even when the parse fails — for every in-range
negative input the parse does fail and the saturated value `int64Max`
is returned, never the original negative value. -/
theorem c3_handle_github_id :
    (∀ id : Int, 0 ≤ id → HandleGitHubID id = id) ∧
    (∀ id : Int, id < 0 →
      HandleGitHubID id = (parseInt64 (formatUint (int64ToUint64 id))).1) ∧
    (∀ id : Int, -(2 ^ 63) ≤ id → id < 0 →
      (parseInt64 (formatUint (int64ToUint64 id))).2 = false ∧
        HandleGitHubID id = int64Max) := by
  refine ⟨?_, ?_, ?_⟩
  · intro id h
    unfold HandleGitHubID
    rw [if_neg (by omega)]
  · intro id h
    unfold HandleGitHubID
    rw [if_pos h]
  · intro id h0 h1
    exact handleGitHubID_neg id h0 h1

/-- Witness: the amended normalizer contract evaluated at `42` and `-5`. -/
theorem c3_handle_github_id_witness :
    HandleGitHubID 42 = 42 ∧
      ((parseInt64 (formatUint (int64ToUint64 (-5)))).2 = false ∧
        HandleGitHubID (-5) = int64Max) :=
  ⟨c3_handle_github_id.1 42 (by norm_num),
   c3_handle_github_id.2.2 (-5) (by norm_num) (by norm_num)⟩

/-! ## C4: rate-limit wait computation -/

/-- C4 (corrected): the wait is not `max(reset - now, 30s) + 5s` capped
at 1 hour.  At reset distance `0` the code computes `0 + 5s = 5s`, which
is not below the `5s` floor threshold, so `5s` is returned — the claimed
formula gives `35s`. -/
theorem c4_wait_counterexample :
    computeWaitTime 0 = 5 * nsPerSecond ∧
      ¬ (computeWaitTime 0 =
          min (max 0 (30 * nsPerSecond) + 5 * nsPerSecond) (3600 * nsPerSecond)) := by
  constructor
  · simp only [computeWaitTime, wrapInt64, nsPerSecond]
    split_ifs <;> omega
  · simp only [computeWaitTime, wrapInt64, nsPerSecond, min_def, max_def]
    split_ifs <;> omega

/-- C4 (amended): for every int64 reset distance `d` (the saturated
result of `time.Until`), the computed wait is `min(d + 5s, 1h)` when
`d ≥ 0` and the buffered sum `d + 5s` still fits in int64, and `30s`
otherwise — both for negative distances and for distances within 5 s of
the int64 maximum, where the int64 buffer addition wraps negative and
the 30 s floor fires.  The claimed formula
`min(max(d, 30s) + 5s, 1h)` holds for every `d ≥ 30s` whose buffered
sum does not overflow; a reset 10 minutes ahead yields exactly 10m5s
(within the claimed 10m0s–10m5s window); and every wait is capped at
1 hour. -/
theorem c4_wait_time :
    (∀ d : Int, -(2 ^ 63) ≤ d → d < 2 ^ 63 →
      computeWaitTime d =
        if 0 ≤ d ∧ d + 5 * nsPerSecond ≤ int64Max then
          min (d + 5 * nsPerSecond) (3600 * nsPerSecond)
        else 30 * nsPerSecond) ∧
    computeWaitTime (600 * nsPerSecond) = 605 * nsPerSecond ∧
    (∀ d : Int, computeWaitTime d ≤ 3600 * nsPerSecond) ∧
    (∀ d : Int, 30 * nsPerSecond ≤ d → d + 5 * nsPerSecond ≤ int64Max →
      computeWaitTime d =
        min (max d (30 * nsPerSecond) + 5 * nsPerSecond) (3600 * nsPerSecond)) ∧
    (∀ d : Int, -(2 ^ 63) ≤ d → d < 2 ^ 63 → int64Max < d + 5 * nsPerSecond →
      computeWaitTime d = 30 * nsPerSecond) := by
  refine ⟨?_, ?_, ?_, ?_, ?_⟩
  · intro d h1 h2
    simp only [computeWaitTime, wrapInt64, nsPerSecond, int64Max, min_def]
    split_ifs <;> omega
  · simp only [computeWaitTime, wrapInt64, nsPerSecond]
    split_ifs <;> omega
  · intro d
    simp only [computeWaitTime, wrapInt64, nsPerSecond]
    split_ifs <;> omega
  · intro d hd hno
    simp only [computeWaitTime, wrapInt64, nsPerSecond, int64Max, min_def, max_def] at *
    split_ifs <;> omega
  · intro d h1 h2 hov
    simp only [computeWaitTime, wrapInt64, nsPerSecond, int64Max] at *
    split_ifs <;> omega

/-- Witness: the amended wait formula evaluated at a reset distance of
10 minutes (satisfying the `d ≥ 30s` and no-overflow hypotheses of the
claimed formula), and at the saturated maximal distance `int64Max`,
where the buffer addition wraps and the wait collapses to 30 s. -/
theorem c4_wait_time_witness :
    computeWaitTime (600 * nsPerSecond) =
        min (max (600 * nsPerSecond) (30 * nsPerSecond) + 5 * nsPerSecond)
          (3600 * nsPerSecond) ∧
      computeWaitTime int64Max = 30 * nsPerSecond :=
  ⟨c4_wait_time.2.2.2.1 (600 * nsPerSecond) (by unfold nsPerSecond; norm_num)
      (by unfold nsPerSecond int64Max; norm_num),
   c4_wait_time.2.2.2.2 int64Max (by unfold int64Max; norm_num)
      (by unfold int64Max; norm_num)
      (by unfold int64Max nsPerSecond; norm_num)⟩

/-! ## C9: worker-pool bounds -/

/-- C9 (corrected): not every configuration path clamps: `NewSyncer`
stores the requested count unclamped, so a syncer built with `20`
workers has a pool size outside 1–10. -/
theorem c9_workers_counterexample :
    (NewSyncer 20).workers = 20 ∧ ¬ ((NewSyncer 20).workers ≤ 10) := by
  constructor
  · rfl
  · decide

/-- C9 (amended): `SetWorkers` clamps every requested count into 1–10
(below 1 up to 1, above 10 down to 10), but `NewSyncer` stores the
requested count without clamping, so only passes on syncers configured
through `SetWorkers` are guaranteed a pool size in 1–10. -/
theorem c9_workers_clamped :
    (∀ (s : Syncer) (w : Int),
      1 ≤ (SetWorkers s w).workers ∧ (SetWorkers s w).workers ≤ 10) ∧
    (∀ w : Int, (NewSyncer w).workers = w) := by
  constructor
  · intro s w
    simp only [SetWorkers]
    split_ifs <;> constructor <;> omega
  · intro w
    rfl

/-! ## C5/C6: retry policy -/

/-- Unfolding `retryLoop` on a rate-limit error when the retry budget is
not yet exhausted: wait, then continue at the next attempt. -/
theorem retryLoop_rateLimit_step (fn : Nat → Option GoError) (d : Int) (m k : Nat)
    (hfn : fn k = some (.rateLimit d)) (hk : k + 1 < m) :
    retryLoop fn m k =
      ((retryLoop fn m (k + 1)).1, computeWaitTime d :: (retryLoop fn m (k + 1)).2) := by
  rw [retryLoop, hfn]
  simp only
  rw [dif_neg (by omega)]

/-- Unfolding `retryLoop` on a rate-limit error when the increment
reaches the budget: wait once more, then return the terminal error
wrapping this last failure. -/
theorem retryLoop_rateLimit_last (fn : Nat → Option GoError) (d : Int) (m k : Nat)
    (hfn : fn k = some (.rateLimit d)) (hk : k + 1 ≥ m) :
    retryLoop fn m k = (.exceededRetries m (.rateLimit d), [computeWaitTime d]) := by
  rw [retryLoop, hfn]
  simp only
  rw [dif_pos hk]

/-- C5 (confirmed): under a persisting rate-limit error the retry layer
executes the operation exactly 5 times (`maxRetries`), waiting after
each failure, and then returns the terminal "exceeded maximum retries"
error wrapping the 5th (last) rate-limit failure.  The result is fully
determined by the first five outcomes, so no further execution occurs. -/
theorem c5_retry_limit :
    ∀ (fn : Nat → Option GoError) (r : Nat → Int),
      (∀ n, n < 5 → fn n = some (.rateLimit (r n))) →
      executeWithRetry fn =
        (.exceededRetries 5 (.rateLimit (r 4)),
         [computeWaitTime (r 0), computeWaitTime (r 1), computeWaitTime (r 2),
          computeWaitTime (r 3), computeWaitTime (r 4)]) := by
  intro fn r h
  unfold executeWithRetry
  rw [retryLoop_rateLimit_step fn (r 0) 5 0 (h 0 (by norm_num)) (by norm_num)]
  rw [retryLoop_rateLimit_step fn (r 1) 5 1 (h 1 (by norm_num)) (by norm_num)]
  rw [retryLoop_rateLimit_step fn (r 2) 5 2 (h 2 (by norm_num)) (by norm_num)]
  rw [retryLoop_rateLimit_step fn (r 3) 5 3 (h 3 (by norm_num)) (by norm_num)]
  rw [retryLoop_rateLimit_last fn (r 4) 5 4 (h 4 (by norm_num)) (by norm_num)]

/-- Witness: five identical rate-limit failures exhaust the retry
budget and produce the terminal error. -/
theorem c5_retry_limit_witness :
    executeWithRetry (fun _ => some (.rateLimit 0)) =
      (.exceededRetries 5 (.rateLimit 0),
       [computeWaitTime 0, computeWaitTime 0, computeWaitTime 0,
        computeWaitTime 0, computeWaitTime 0]) :=
  c5_retry_limit (fun _ => some (.rateLimit 0)) (fun _ => 0) (fun _ _ => rfl)

/-- C6 (confirmed): a non-rate-limit error from the very first execution
is propagated immediately: no retry happens and the wait list is empty. -/
theorem c6_non_rate_limit_immediate :
    ∀ (fn : Nat → Option GoError) (c : Nat),
      fn 0 = some (.other c) →
      executeWithRetry fn = (.propagated (.other c), []) := by
  intro fn c h
  unfold executeWithRetry
  rw [retryLoop, h]

/-- Witness: a concrete non-rate-limit error propagates with no waits. -/
theorem c6_non_rate_limit_immediate_witness :
    executeWithRetry (fun _ => some (.other 7)) = (.propagated (.other 7), []) :=
  c6_non_rate_limit_immediate (fun _ => some (.other 7)) 7 rfl

/-! ## C8: pagination -/

/-- The pagination loop terminates as soon as any page within the fuel
window is partial (fewer than `perPage` items). -/
theorem paginate_terminates {α : Type} (perPage : Nat) :
    ∀ (fuel page : Nat) (f : Nat → List α),
      (∃ q, page ≤ q ∧ q < page + fuel ∧ (f q).length < perPage) →
      ∃ res, paginate f perPage page fuel = some res := by
  intro fuel
  induction fuel with
  | zero =>
    intro page f ⟨q, hq1, hq2, _⟩
    omega
  | succ n ih =>
    intro page f ⟨q, hq1, hq2, hq3⟩
    rw [paginate]
    by_cases hp : (f page).length < perPage
    · exact ⟨f page, by rw [if_pos hp]⟩
    · rw [if_neg hp]
      have hqne : q ≠ page := fun he => hp (he ▸ hq3)
      obtain ⟨rest, hrest⟩ := ih (page + 1) f ⟨q, by omega, by omega, hq3⟩
      exact ⟨f page ++ rest, by rw [hrest]⟩

/-- When every page before `page + n` is full-sized and page `page + n`
is partial, the loop returns exactly the concatenation of pages
`page .. page + n` (the first partial page terminates pagination). -/
theorem paginate_stops_at_short_page {α : Type} (perPage : Nat) :
    ∀ (n page : Nat) (f : Nat → List α),
      (∀ r, page ≤ r → r < page + n → perPage ≤ (f r).length) →
      (f (page + n)).length < perPage →
      paginate f perPage page (n + 1) =
        some (((List.range' page (n + 1)).map f).flatten) := by
  intro n
  induction n with
  | zero =>
    intro page f _hfull hpart
    rw [paginate, if_pos (by simpa using hpart)]
    simp
  | succ m ih =>
    intro page f hfull hpart
    have hfp : ¬ ((f page).length < perPage) := by
      have := hfull page (le_refl page) (by omega)
      omega
    rw [paginate, if_neg hfp]
    have hrec := ih (page + 1) f
      (fun r h1 h2 => hfull r (by omega) (by omega))
      (by have : page + 1 + m = page + (m + 1) := by omega
          rw [this]; exact hpart)
    rw [hrec]
    simp [List.range'_succ]

/-- C8 (confirmed): `GetIssues` and `GetIssueComments` page with
`PerPage = 100` starting at page 1; the loop terminates whenever some
page is partial (fewer than 100 items, the empty page included), and
when the first partial page is page `n + 1` the result is exactly the
concatenation of pages `1 .. n + 1`. -/
theorem c8_pagination :
    (∀ (α : Type) (f : Nat → List α) (p : Nat), 1 ≤ p → (f p).length < 100 →
      ∃ res, GetIssues f p = some res) ∧
    (∀ (α : Type) (f : Nat → List α) (n : Nat),
      (∀ r, 1 ≤ r → r < 1 + n → 100 ≤ (f r).length) → (f (1 + n)).length < 100 →
      GetIssues f (n + 1) = some (((List.range' 1 (n + 1)).map f).flatten)) ∧
    (∀ (α : Type) (f : Nat → List α) (p : Nat), 1 ≤ p → (f p).length < 100 →
      ∃ res, GetIssueComments f p = some res) ∧
    (∀ (α : Type) (f : Nat → List α) (n : Nat),
      (∀ r, 1 ≤ r → r < 1 + n → 100 ≤ (f r).length) → (f (1 + n)).length < 100 →
      GetIssueComments f (n + 1) = some (((List.range' 1 (n + 1)).map f).flatten)) := by
  refine ⟨?_, ?_, ?_, ?_⟩
  · intro α f p h1 h2
    exact paginate_terminates 100 p 1 f ⟨p, h1, by omega, h2⟩
  · intro α f n hfull hpart
    exact paginate_stops_at_short_page 100 n 1 f hfull hpart
  · intro α f p h1 h2
    exact paginate_terminates 100 p 1 f ⟨p, h1, by omega, h2⟩
  · intro α f n hfull hpart
    exact paginate_stops_at_short_page 100 n 1 f hfull hpart

/-- Witness: an empty first page of issues terminates pagination at
once. -/
theorem c8_pagination_witness :
    ∃ res, GetIssues (fun _ => ([] : List Nat)) 1 = some res :=
  c8_pagination.1 Nat (fun _ => []) 1 (by norm_num) (by simp)

/-! ## C1/C10: upsert algebra -/

/-- Applying a `DO UPDATE` twice equals applying it once, when the
update preserves the conflict target and is idempotent per row. -/
theorem updateWhere_twice {β : Type} (p : β → Bool) (u : β → β)
    (hp : ∀ z, p (u z) = p z) (hu : ∀ z, u (u z) = u z) (l : List β) :
    updateWhere p u (updateWhere p u l) = updateWhere p u l := by
  unfold updateWhere
  rw [List.map_map]
  refine List.map_congr_left (fun x _ => ?_)
  by_cases h : p x = true
  · simp only [Function.comp_apply, if_pos h, if_pos ((hp x).trans h), hu]
  · simp only [Function.comp_apply, if_neg h]

/-- `any q` is unchanged by a `DO UPDATE` whose update preserves `q`. -/
theorem updateWhere_any {β : Type} (p q : β → Bool) (u : β → β)
    (hq : ∀ z, q (u z) = q z) (l : List β) :
    (updateWhere p u l).any q = l.any q := by
  unfold updateWhere
  induction l with
  | nil => rfl
  | cons a t ih =>
    simp only [List.map_cons, List.any_cons, ih]
    by_cases h : p a = true
    · rw [if_pos h, hq]
    · rw [if_neg h]

/-- A `DO UPDATE` whose conflict target matches no row is a no-op. -/
theorem updateWhere_noop {β : Type} (p : β → Bool) (u : β → β) :
    ∀ l : List β, (∀ x ∈ l, p x = false) → updateWhere p u l = l := by
  intro l
  induction l with
  | nil => intro _; rfl
  | cons a t ih =>
    intro h
    unfold updateWhere at *
    simp only [List.map_cons]
    rw [if_neg (by simp [h a (List.mem_cons_self a t)]),
        ih (fun x hx => h x (List.mem_cons_of_mem a hx))]

/-- `updateWhere` distributes over append. -/
theorem updateWhere_append {β : Type} (p : β → Bool) (u : β → β) (l l' : List β) :
    updateWhere p u (l ++ l') = updateWhere p u l ++ updateWhere p u l' := by
  unfold updateWhere
  exact List.map_append _ l l'

/-- A failed `any` gives elementwise falseness. -/
theorem any_false_mem {β : Type} {p : β → Bool} {l : List β}
    (h : ¬ (l.any p = true)) : ∀ x ∈ l, p x = false := by
  intro x hx
  have h2 : l.any p = false := Bool.eq_false_iff.mpr h
  exact Bool.eq_false_iff.mpr ((List.any_eq_false.mp h2) x hx)

/-- The repository `DO UPDATE` preserves the `full_name` target and is
idempotent. -/
theorem repoUpd_any (v : ModelRepository) (l : List RepoRow) :
    (updateWhere (fun r => r.fullName = v.fullName)
        (fun r => { r with owner := v.owner, name := v.name }) l).any
      (fun r => r.fullName = v.fullName) =
      l.any (fun r => r.fullName = v.fullName) := by
  apply updateWhere_any
  intro z
  rfl

theorem repoUpd_twice (v : ModelRepository) (l : List RepoRow) :
    updateWhere (fun r => r.fullName = v.fullName)
        (fun r => { r with owner := v.owner, name := v.name })
        (updateWhere (fun r => r.fullName = v.fullName)
          (fun r => { r with owner := v.owner, name := v.name }) l) =
      updateWhere (fun r => r.fullName = v.fullName)
        (fun r => { r with owner := v.owner, name := v.name }) l := by
  apply updateWhere_twice
  · intro z
    rfl
  · intro z
    rfl

/-- The user `DO UPDATE` preserves the `id` target and is idempotent. -/
theorem userUpd_any (v : ModelUser) (l : List UserRow) :
    (updateWhere (fun r => r.id = v.id)
        (fun r => { r with login := v.login, avatarURL := v.avatarURL }) l).any
      (fun r => r.id = v.id) = l.any (fun r => r.id = v.id) := by
  apply updateWhere_any
  intro z
  rfl

theorem userUpd_twice (v : ModelUser) (l : List UserRow) :
    updateWhere (fun r => r.id = v.id)
        (fun r => { r with login := v.login, avatarURL := v.avatarURL })
        (updateWhere (fun r => r.id = v.id)
          (fun r => { r with login := v.login, avatarURL := v.avatarURL }) l) =
      updateWhere (fun r => r.id = v.id)
        (fun r => { r with login := v.login, avatarURL := v.avatarURL }) l := by
  apply updateWhere_twice
  · intro z
    rfl
  · intro z
    rfl

/-- The issue `DO UPDATE` preserves the `(repository_id, number)` target
and is idempotent. -/
theorem issueUpd_any (v : ModelIssue) (repoID : Int) (l : List IssueRow) :
    (updateWhere (fun r => r.repositoryId = repoID ∧ r.number = v.number)
        (fun r => { r with title := v.title, body := v.body, state := v.state,
                           updatedAt := v.updatedAt, closedAt := v.closedAt,
                           userId := v.userId, isPullRequest := v.isPullRequest }) l).any
      (fun r => r.repositoryId = repoID ∧ r.number = v.number) =
      l.any (fun r => r.repositoryId = repoID ∧ r.number = v.number) := by
  apply updateWhere_any
  intro z
  rfl

theorem issueUpd_twice (v : ModelIssue) (repoID : Int) (l : List IssueRow) :
    updateWhere (fun r => r.repositoryId = repoID ∧ r.number = v.number)
        (fun r => { r with title := v.title, body := v.body, state := v.state,
                           updatedAt := v.updatedAt, closedAt := v.closedAt,
                           userId := v.userId, isPullRequest := v.isPullRequest })
        (updateWhere (fun r => r.repositoryId = repoID ∧ r.number = v.number)
          (fun r => { r with title := v.title, body := v.body, state := v.state,
                             updatedAt := v.updatedAt, closedAt := v.closedAt,
                             userId := v.userId, isPullRequest := v.isPullRequest }) l) =
      updateWhere (fun r => r.repositoryId = repoID ∧ r.number = v.number)
        (fun r => { r with title := v.title, body := v.body, state := v.state,
                           updatedAt := v.updatedAt, closedAt := v.closedAt,
                           userId := v.userId, isPullRequest := v.isPullRequest }) l := by
  apply updateWhere_twice
  · intro z
    rfl
  · intro z
    rfl

/-- The comment `DO UPDATE` preserves the `id` target and is idempotent. -/
theorem commentUpd_any (v : ModelComment) (l : List CommentRow) :
    (updateWhere (fun r => r.id = v.id)
        (fun r => { r with body := v.body, updatedAt := v.updatedAt }) l).any
      (fun r => r.id = v.id) = l.any (fun r => r.id = v.id) := by
  apply updateWhere_any
  intro z
  rfl

theorem commentUpd_twice (v : ModelComment) (l : List CommentRow) :
    updateWhere (fun r => r.id = v.id)
        (fun r => { r with body := v.body, updatedAt := v.updatedAt })
        (updateWhere (fun r => r.id = v.id)
          (fun r => { r with body := v.body, updatedAt := v.updatedAt }) l) =
      updateWhere (fun r => r.id = v.id)
        (fun r => { r with body := v.body, updatedAt := v.updatedAt }) l := by
  apply updateWhere_twice
  · intro z
    rfl
  · intro z
    rfl

/-- The label `DO UPDATE` preserves the `id` target and is idempotent. -/
theorem labelUpd_any (v : ModelLabel) (l : List LabelRow) :
    (updateWhere (fun r => r.id = v.id)
        (fun r => { r with name := v.name, color := v.color }) l).any
      (fun r => r.id = v.id) = l.any (fun r => r.id = v.id) := by
  apply updateWhere_any
  intro z
  rfl

theorem labelUpd_twice (v : ModelLabel) (l : List LabelRow) :
    updateWhere (fun r => r.id = v.id)
        (fun r => { r with name := v.name, color := v.color })
        (updateWhere (fun r => r.id = v.id)
          (fun r => { r with name := v.name, color := v.color }) l) =
      updateWhere (fun r => r.id = v.id)
        (fun r => { r with name := v.name, color := v.color }) l := by
  apply updateWhere_twice
  · intro z
    rfl
  · intro z
    rfl

/-- The `users` collision check stays false after the `DO UPDATE` of
`SaveUser`: updated rows carry the saved id, other rows are untouched. -/
theorem saveUser_collision (v : ModelUser) (l : List UserRow)
    (hc : ¬ (l.any (fun r => r.id ≠ v.id ∧ r.login = v.login) = true)) :
    ¬ ((updateWhere (fun r => r.id = v.id)
          (fun r => { r with login := v.login, avatarURL := v.avatarURL }) l).any
        (fun r => r.id ≠ v.id ∧ r.login = v.login) = true) := by
  intro hq
  apply hc
  rw [List.any_eq_true] at hq ⊢
  obtain ⟨x, hx, hxq⟩ := hq
  rw [updateWhere, List.mem_map] at hx
  obtain ⟨y, hy, rfl⟩ := hx
  by_cases hp : y.id = v.id
  · rw [if_pos (by simp [hp])] at hxq
    simp [hp] at hxq
  · rw [if_neg (by simp [hp])] at hxq
    exact ⟨y, hy, hxq⟩

/-- The `labels` collision check stays false after the `DO UPDATE` of
`SaveLabel`. -/
theorem saveLabel_collision (v : ModelLabel) (l : List LabelRow)
    (hc : ¬ (l.any (fun r => r.id ≠ v.id ∧ r.name = v.name ∧ r.color = v.color) = true)) :
    ¬ ((updateWhere (fun r => r.id = v.id)
          (fun r => { r with name := v.name, color := v.color }) l).any
        (fun r => r.id ≠ v.id ∧ r.name = v.name ∧ r.color = v.color) = true) := by
  intro hq
  apply hc
  rw [List.any_eq_true] at hq ⊢
  obtain ⟨x, hx, hxq⟩ := hq
  rw [updateWhere, List.mem_map] at hx
  obtain ⟨y, hy, rfl⟩ := hx
  by_cases hp : y.id = v.id
  · rw [if_pos (by simp [hp])] at hxq
    simp [hp] at hxq
  · rw [if_neg (by simp [hp])] at hxq
    exact ⟨y, hy, hxq⟩

/-- `SaveRepository` is an idempotent upsert. -/
theorem saveRepository_idem (v : ModelRepository) (s s' : Store)
    (h : SaveRepository v s = .ok s') : SaveRepository v s' = .ok s' := by
  unfold SaveRepository at h ⊢
  by_cases h1 : s.repositories.any (fun r => r.fullName = v.fullName) = true
  · rw [if_pos h1] at h
    injection h with h2
    subst h2
    dsimp only
    rw [repoUpd_any v s.repositories, if_pos h1, repoUpd_twice v s.repositories]
  · rw [if_neg h1] at h
    by_cases h2 : s.repositories.any (fun r => r.id = v.id) = true
    · rw [if_pos h2] at h
      exact absurd h (by simp)
    · rw [if_neg h2] at h
      injection h with h3
      subst h3
      dsimp only
      rw [if_pos (by simp [List.any_append]),
          updateWhere_append,
          updateWhere_noop _ _ s.repositories (any_false_mem h1),
          show updateWhere (fun r : RepoRow => r.fullName = v.fullName)
              (fun r => { r with owner := v.owner, name := v.name })
              [⟨v.id, v.owner, v.name, v.fullName⟩] =
            [⟨v.id, v.owner, v.name, v.fullName⟩] by simp [updateWhere]]

/-- `SaveUser` is an idempotent upsert. -/
theorem saveUser_idem (v : ModelUser) (s s' : Store)
    (h : SaveUser v s = .ok s') : SaveUser v s' = .ok s' := by
  unfold SaveUser at h ⊢
  by_cases h1 : s.users.any (fun r => r.id = v.id) = true
  · rw [if_pos h1] at h
    by_cases hc : s.users.any (fun r => r.id ≠ v.id ∧ r.login = v.login) = true
    · rw [if_pos hc] at h
      exact absurd h (by simp)
    · rw [if_neg hc] at h
      injection h with h2
      subst h2
      dsimp only
      rw [userUpd_any v s.users, if_pos h1,
          if_neg (saveUser_collision v s.users hc),
          userUpd_twice v s.users]
  · rw [if_neg h1] at h
    by_cases h2 : s.users.any (fun r => r.login = v.login) = true
    · rw [if_pos h2] at h
      exact absurd h (by simp)
    · rw [if_neg h2] at h
      injection h with h3
      subst h3
      dsimp only
      rw [if_pos (by simp [List.any_append])]
      have hcol : ¬ ((s.users ++ [(⟨v.id, v.login, v.avatarURL⟩ : UserRow)]).any
          (fun r => r.id ≠ v.id ∧ r.login = v.login) = true) := by
        simp only [List.any_append, Bool.or_eq_true]
        rintro (hl | hr)
        · obtain ⟨x, hx, hxq⟩ := List.any_eq_true.mp hl
          have := any_false_mem h2 x hx
          simp at hxq this
          exact this hxq.2
        · simp at hr
      rw [if_neg hcol,
          updateWhere_append,
          updateWhere_noop _ _ s.users (any_false_mem h1),
          show updateWhere (fun r : UserRow => r.id = v.id)
              (fun r => { r with login := v.login, avatarURL := v.avatarURL })
              [⟨v.id, v.login, v.avatarURL⟩] = [⟨v.id, v.login, v.avatarURL⟩] by
            simp [updateWhere]]

/-- `SaveIssue` is an idempotent upsert. -/
theorem saveIssue_idem (v : ModelIssue) (repoID : Int) (s s' : Store)
    (h : SaveIssue v repoID s = .ok s') : SaveIssue v repoID s' = .ok s' := by
  unfold SaveIssue at h ⊢
  by_cases h1 : s.issues.any (fun r => r.repositoryId = repoID ∧ r.number = v.number) = true
  · rw [if_pos h1] at h
    injection h with h2
    subst h2
    dsimp only
    rw [issueUpd_any v repoID s.issues, if_pos h1, issueUpd_twice v repoID s.issues]
  · rw [if_neg h1] at h
    by_cases h2 : s.issues.any (fun r => r.id = v.id) = true
    · rw [if_pos h2] at h
      exact absurd h (by simp)
    · rw [if_neg h2] at h
      injection h with h3
      subst h3
      dsimp only
      rw [if_pos (by simp [List.any_append]),
          updateWhere_append,
          updateWhere_noop _ _ s.issues (any_false_mem h1),
          show updateWhere
              (fun r : IssueRow => r.repositoryId = repoID ∧ r.number = v.number)
              (fun r => { r with title := v.title, body := v.body, state := v.state,
                                 updatedAt := v.updatedAt, closedAt := v.closedAt,
                                 userId := v.userId, isPullRequest := v.isPullRequest })
              [⟨v.id, v.number, v.title, v.body, v.state, v.createdAt, v.updatedAt,
                v.closedAt, v.userId, repoID, v.isPullRequest⟩] =
            [⟨v.id, v.number, v.title, v.body, v.state, v.createdAt, v.updatedAt,
              v.closedAt, v.userId, repoID, v.isPullRequest⟩] by simp [updateWhere]]

/-- `SaveComment` is an idempotent upsert. -/
theorem saveComment_idem (v : ModelComment) (s s' : Store)
    (h : SaveComment v s = .ok s') : SaveComment v s' = .ok s' := by
  unfold SaveComment at h ⊢
  by_cases h1 : s.comments.any (fun r => r.id = v.id) = true
  · rw [if_pos h1] at h
    injection h with h2
    subst h2
    dsimp only
    rw [commentUpd_any v s.comments, if_pos h1, commentUpd_twice v s.comments]
  · rw [if_neg h1] at h
    injection h with h3
    subst h3
    dsimp only
    rw [if_pos (by simp [List.any_append]),
        updateWhere_append,
        updateWhere_noop _ _ s.comments (any_false_mem h1),
        show updateWhere (fun r : CommentRow => r.id = v.id)
            (fun r => { r with body := v.body, updatedAt := v.updatedAt })
            [⟨v.id, v.issueId, v.userId, v.body, v.createdAt, v.updatedAt⟩] =
          [⟨v.id, v.issueId, v.userId, v.body, v.createdAt, v.updatedAt⟩] by
          simp [updateWhere]]

/-- `SaveLabel` is an idempotent upsert (also returning the same id). -/
theorem saveLabel_idem (v : ModelLabel) (s s' : Store) (i : Int)
    (h : SaveLabel v s = .ok (i, s')) : SaveLabel v s' = .ok (i, s') := by
  unfold SaveLabel at h ⊢
  by_cases h1 : s.labels.any (fun r => r.id = v.id) = true
  · rw [if_pos h1] at h
    by_cases hc : s.labels.any (fun r => r.id ≠ v.id ∧ r.name = v.name ∧ r.color = v.color) = true
    · rw [if_pos hc] at h
      exact absurd h (by simp)
    · rw [if_neg hc] at h
      injection h with h2
      rw [Prod.mk.injEq] at h2
      obtain ⟨hi, hs⟩ := h2
      subst hi
      subst hs
      dsimp only
      rw [labelUpd_any v s.labels, if_pos h1,
          if_neg (saveLabel_collision v s.labels hc),
          labelUpd_twice v s.labels]
  · rw [if_neg h1] at h
    by_cases h2 : s.labels.any (fun r => r.name = v.name ∧ r.color = v.color) = true
    · rw [if_pos h2] at h
      exact absurd h (by simp)
    · rw [if_neg h2] at h
      injection h with h3
      rw [Prod.mk.injEq] at h3
      obtain ⟨hi, hs⟩ := h3
      subst hi
      subst hs
      dsimp only
      rw [if_pos (by simp [List.any_append])]
      have hcol : ¬ ((s.labels ++ [(⟨v.id, v.name, v.color⟩ : LabelRow)]).any
          (fun r => r.id ≠ v.id ∧ r.name = v.name ∧ r.color = v.color) = true) := by
        simp only [List.any_append, Bool.or_eq_true]
        rintro (hl | hr)
        · obtain ⟨x, hx, hxq⟩ := List.any_eq_true.mp hl
          have := any_false_mem h2 x hx
          simp at hxq this
          exact this hxq.2.1 hxq.2.2
        · simp at hr
      rw [if_neg hcol,
          updateWhere_append,
          updateWhere_noop _ _ s.labels (any_false_mem h1),
          show updateWhere (fun r : LabelRow => r.id = v.id)
              (fun r => { r with name := v.name, color := v.color })
              [⟨v.id, v.name, v.color⟩] = [⟨v.id, v.name, v.color⟩] by simp [updateWhere]]

/-- `SaveIssueLabel` is idempotent (a duplicate insert is a no-op). -/
theorem saveIssueLabel_idem (a b : Int) (s s' : Store)
    (h : SaveIssueLabel a b s = .ok s') : SaveIssueLabel a b s' = .ok s' := by
  unfold SaveIssueLabel at h ⊢
  by_cases h1 : s.issueLabels.any (fun p => p.1 = a ∧ p.2 = b) = true
  · rw [if_pos h1] at h
    injection h with h2
    subst h2
    rw [if_pos h1]
  · rw [if_neg h1] at h
    injection h with h2
    subst h2
    dsimp only
    rw [if_pos (by simp [List.any_append])]

/-- C10 (confirmed): the label upsert is not error-free.  Its conflict
target is `id`, while the schema enforces `UNIQUE(name, color)`: when
the store holds a label row with the same `(name, color)` but a
different id, `SaveLabel` returns an error instead of inserting or
updating a row (the failed statement leaves the label table unchanged —
in this model an error returns no new store). -/
theorem c10_label_conflict :
    ∀ (l : ModelLabel) (s : Store),
      (∃ r ∈ s.labels, r.name = l.name ∧ r.color = l.color ∧ r.id ≠ l.id) →
      SaveLabel l s = .error () := by
  intro l s h
  obtain ⟨r, hr, hname, hcolor, hid⟩ := h
  unfold SaveLabel
  by_cases h1 : s.labels.any (fun x => x.id = l.id) = true
  · have hc : s.labels.any (fun x => x.id ≠ l.id ∧ x.name = l.name ∧ x.color = l.color) = true :=
      List.any_eq_true.mpr ⟨r, hr, by simp [hid, hname, hcolor]⟩
    rw [if_pos h1, if_pos hc]
  · have hc : s.labels.any (fun x => x.name = l.name ∧ x.color = l.color) = true :=
      List.any_eq_true.mpr ⟨r, hr, by simp [hname, hcolor]⟩
    rw [if_neg h1, if_pos hc]

/-- Witness: saving label id 2 named `bug`/`f00` into a store whose
only label row is id 1 named `bug`/`f00` fails. -/
theorem c10_label_conflict_witness :
    SaveLabel ⟨2, "bug", "f00"⟩ ⟨[], [], [], [], [⟨1, "bug", "f00"⟩], [], []⟩ = .error () :=
  c10_label_conflict ⟨2, "bug", "f00"⟩ ⟨[], [], [], [], [⟨1, "bug", "f00"⟩], [], []⟩
    ⟨⟨1, "bug", "f00"⟩, by simp, rfl, rfl, by decide⟩

/-- C1 (confirmed): every persistence write is an idempotent upsert:
if a save operation applied to value `v` succeeded and produced store
`s'`, applying it again with the same `v` succeeds and leaves the store
at exactly `s'` — no duplicate rows, no row-count growth, no error on
the repeated application — so re-persisting the same unchanged remote
state leaves an identical store. -/
theorem c1_upsert_idempotent :
    (∀ (v : ModelRepository) (s s' : Store),
      SaveRepository v s = .ok s' → SaveRepository v s' = .ok s') ∧
    (∀ (v : ModelUser) (s s' : Store),
      SaveUser v s = .ok s' → SaveUser v s' = .ok s') ∧
    (∀ (v : ModelIssue) (repoID : Int) (s s' : Store),
      SaveIssue v repoID s = .ok s' → SaveIssue v repoID s' = .ok s') ∧
    (∀ (v : ModelComment) (s s' : Store),
      SaveComment v s = .ok s' → SaveComment v s' = .ok s') ∧
    (∀ (v : ModelLabel) (s s' : Store) (i : Int),
      SaveLabel v s = .ok (i, s') → SaveLabel v s' = .ok (i, s')) ∧
    (∀ (a b : Int) (s s' : Store),
      SaveIssueLabel a b s = .ok s' → SaveIssueLabel a b s' = .ok s') :=
  ⟨saveRepository_idem, saveUser_idem, saveIssue_idem, saveComment_idem,
   saveLabel_idem, saveIssueLabel_idem⟩

/-- Witness: re-saving an already-present repository row returns the
store unchanged. -/
theorem c1_upsert_idempotent_witness :
    SaveRepository ⟨1, "o", "n", "o/n"⟩
        ⟨[⟨1, "o", "n", "o/n"⟩], [], [], [], [], [], []⟩ =
      .ok ⟨[⟨1, "o", "n", "o/n"⟩], [], [], [], [], [], []⟩ :=
  c1_upsert_idempotent.1 ⟨1, "o", "n", "o/n"⟩ Store.empty
    ⟨[⟨1, "o", "n", "o/n"⟩], [], [], [], [], [], []⟩ rfl

/-! ## C7: checkpoint advance -/

/-- After the `DO UPDATE` of `UpdateLastSyncTime`, the first row keyed
by the full name holds the new sync time. -/
theorem find?_updateWhere_syncMeta (fn : String) (t : Int) :
    ∀ l : List (String × Int), l.any (fun p => p.1 = fn) = true →
      (updateWhere (fun p => p.1 = fn) (fun p => (p.1, t)) l).find? (fun p => p.1 = fn) =
        some (fn, t) := by
  intro l
  induction l with
  | nil =>
    intro h
    simp at h
  | cons a tl ih =>
    intro h
    unfold updateWhere at *
    simp only [List.map_cons]
    by_cases ha : a.1 = fn
    · rw [if_pos (by simp [ha]), List.find?_cons_of_pos _ (by simp [ha])]
      simp [ha]
    · rw [if_neg (by simp [ha]), List.find?_cons_of_neg _ (by simp [ha])]
      apply ih
      simp only [List.any_cons, Bool.or_eq_true] at h
      rcases h with h | h
      · simp [ha] at h
      · exact h

/-- After the insert of `UpdateLastSyncTime`, the appended row keyed by
the full name holds the new sync time. -/
theorem find?_append_syncMeta (fn : String) (t : Int) :
    ∀ l : List (String × Int), l.any (fun p => p.1 = fn) = false →
      (l ++ [(fn, t)]).find? (fun p => p.1 = fn) = some (fn, t) := by
  intro l
  induction l with
  | nil =>
    intro _
    rw [List.nil_append, List.find?_cons_of_pos _ (by simp)]
  | cons a tl ih =>
    intro h
    simp only [List.any_cons, Bool.or_eq_false_iff] at h
    rw [List.cons_append, List.find?_cons_of_neg _ (by simp [h.1]), ih h.2]

/-- The checkpoint read after `UpdateLastSyncTime` sees the written
instant. -/
theorem getLastSync_update (s : Store) (fn : String) (t : Int) :
    ((UpdateLastSyncTime fn t s).syncMetadata).find? (fun p => p.1 = fn) = some (fn, t) := by
  unfold UpdateLastSyncTime
  by_cases h : s.syncMetadata.any (fun p => p.1 = fn) = true
  · rw [if_pos h]
    dsimp only
    exact find?_updateWhere_syncMeta fn t s.syncMetadata h
  · rw [if_neg h]
    dsimp only
    exact find?_append_syncMeta fn t s.syncMetadata (Bool.eq_false_iff.mpr h)

/-- C7 (confirmed): every `SyncRepository` pass that gets past the fatal
setup steps (repository fetch, owner save, repository save, checkpoint
read, issue enumeration) succeeds and advances the checkpoint row for
the repository's full name to `remote.endTime` — the instant the pass
finished — unconditionally: for every per-issue behaviour (the
`processIssue` outcomes are arbitrary here, failures included) and also
when the changed-set is empty. -/
theorem c7_checkpoint_advance :
    ∀ (remote : Remote) (owner name : String) (s : Store)
      (repo : ModelRepository) (ownerUser : ModelUser) (s1 s2 : Store)
      (issues : List GhIssue),
      remote.getRepository = .ok (repo, ownerUser) →
      SaveUser ownerUser s = .ok s1 →
      SaveRepository repo s1 = .ok s2 →
      remote.getIssues (GetLastSyncTime (owner ++ "/" ++ name) s2) = .ok issues →
      ∃ s' : Store, SyncRepository remote owner name s = .ok s' ∧
        s'.syncMetadata.find? (fun p => p.1 = owner ++ "/" ++ name) =
          some (owner ++ "/" ++ name, remote.endTime) := by
  intro remote owner name s repo ownerUser s1 s2 issues h1 h2 h3 h4
  unfold SyncRepository
  simp only [h1, h2, h3, h4]
  by_cases hlen : issues.length = 0
  · rw [if_pos hlen]
    exact ⟨_, rfl, getLastSync_update s2 (owner ++ "/" ++ name) remote.endTime⟩
  · rw [if_neg hlen]
    exact ⟨_, rfl, getLastSync_update _ (owner ++ "/" ++ name) remote.endTime⟩

/-- Witness: a pass over an empty store with an empty changed-set
advances the checkpoint to the pass-end instant 42. -/
theorem c7_checkpoint_advance_witness :
    ∃ s' : Store,
      SyncRepository ⟨.ok (⟨1, "o", "n", "o/n"⟩, ⟨1, "o", "", "User"⟩),
          fun _ => .ok [], fun _ => .ok [], 42⟩ "o" "n" Store.empty = .ok s' ∧
        s'.syncMetadata.find? (fun p => p.1 = "o" ++ "/" ++ "n") =
          some ("o" ++ "/" ++ "n", (42 : Int)) :=
  c7_checkpoint_advance _ "o" "n" Store.empty ⟨1, "o", "n", "o/n"⟩ ⟨1, "o", "", "User"⟩
    ⟨[], [⟨1, "o", ""⟩], [], [], [], [], []⟩
    ⟨[⟨1, "o", "n", "o/n"⟩], [⟨1, "o", ""⟩], [], [], [], [], []⟩ [] rfl rfl rfl rfl

end Argh
